import Mathlib

/-!
Shallow embedding of the rosetta backend-api (Go) story repository and
media-upload coordinator, together with proofs of the specified properties.

Strings are modelled as lists of characters; MongoDB ObjectIDs as natural
numbers (0 is the zero ObjectID, and the generator is a counter whose fresh
ids are positive); the stories collection as an association list from
ObjectID to the stored document.  A Go nil slice is distinguished from an
empty slice by an `Option` around the list of segments.
-/

namespace Rosetta

/-- Strings of the embedded program, as lists of characters. -/
abbrev Str := List Char

/-- Bridge from Lean string literals to embedded strings. -/
def str (s : String) : Str := s.data

/-- MongoDB ObjectID, abstracted: 0 is the zero (unset) ObjectID. -/
abbrev ObjectID := Nat

/-- primitive.NewObjectID with an explicit generator state: returns the fresh
id and the next generator state.  Fresh ids are positive, hence never the
zero ObjectID, and distinct generator states yield distinct ids. -/
def newObjectID (g : Nat) : ObjectID × Nat := (g + 1, g + 1)

/-- models.Audio: an audio asset reference. -/
structure AudioRef where
  url : Str
deriving DecidableEq, Repr

/-- models.Image: an image asset reference. -/
structure ImageRef where
  url : Str
deriving DecidableEq, Repr

/-- models.Script: a script text payload. -/
structure ScriptRef where
  text : Str
deriving DecidableEq, Repr

/-- models.Segment: one ordered unit of a story. -/
structure Segment where
  id : ObjectID
  audio : Option AudioRef
  image : Option ImageRef
  script : Option ScriptRef
deriving DecidableEq, Repr

/-- models.Story: the aggregate root.  `segments = none` models a Go nil
slice, `segments = some l` a present list. -/
structure Story where
  id : ObjectID
  title : Str
  segments : Option (List Segment)
  createdAt : Nat
  isPublished : Bool
deriving DecidableEq, Repr

/-- The "stories" collection: an association list from `_id` to document. -/
abbrev DB := List (ObjectID × Story)

/-- collection.FindOne on the filter `_id = oid`: first matching document. -/
def findOne : DB → ObjectID → Option Story
  | [], _ => none
  | (k, v) :: rest, oid => if k = oid then some v else findOne rest oid

/-- collection.InsertOne: adds the document under its `_id`. -/
def insertOne (db : DB) (oid : ObjectID) (st : Story) : DB :=
  (oid, st) :: db

/-- collection.DeleteOne on the filter `_id = oid`: removes the first
matching document; deleting a missing id is not an error. -/
def deleteOne : DB → ObjectID → DB
  | [], _ => []
  | (k, v) :: rest, oid => if k = oid then rest else (k, v) :: deleteOne rest oid

/-- collection.UpdateOne on the filter `_id = oid`: applies the update to the
first matching document; a missing id matches nothing and is not an error
(no upsert). -/
def updateOneSet : DB → ObjectID → (Story → Story) → DB
  | [], _, _ => []
  | (k, v) :: rest, oid, f =>
      if k = oid then (k, f v) :: rest else (k, v) :: updateOneSet rest oid f

/-- Hexadecimal digit test, as accepted by primitive.ObjectIDFromHex. -/
def isHexDigit (c : Char) : Bool :=
  ('0' ≤ c && c ≤ '9') || ('a' ≤ c && c ≤ 'f') || ('A' ≤ c && c ≤ 'F')

/-- Value of a hexadecimal digit. -/
def hexVal (c : Char) : Nat :=
  if '0' ≤ c && c ≤ '9' then c.toNat - '0'.toNat
  else if 'a' ≤ c && c ≤ 'f' then c.toNat - 'a'.toNat + 10
  else c.toNat - 'A'.toNat + 10

/-- Numeric value of a hexadecimal string. -/
def hexToNat (s : Str) : Nat :=
  s.foldl (fun acc c => acc * 16 + hexVal c) 0

/-- primitive.ObjectIDFromHex: a valid ObjectID string is exactly 24
hexadecimal characters; anything else is a parse error. -/
def objectIDFromHex (s : Str) : Option ObjectID :=
  if s.length = 24 && s.all isHexDigit then some (hexToNat s) else none

/-- HTTP-level outcome of a handler, at the granularity the spec cares
about: status code plus the JSON story body when there is one. -/
inductive HResp where
  | created (st : Story)
  | ok (st : Story)
  | noContent
  | badRequest
  | serverError
deriving DecidableEq, Repr

/-- Server state threaded through the handlers: the stories collection and
the ObjectID generator state. -/
structure SState where
  db : DB
  gen : Nat
deriving DecidableEq, Repr

/-- createStory handler (body already decoded into `input`): normalizes a
nil segment list to the empty list, assigns a fresh `_id` and the creation
timestamp, inserts the document, and returns it with status 201. -/
def createStory (s : SState) (now : Nat) (input : Story) : SState × HResp :=
  let segs : Option (List Segment) :=
    match input.segments with
    | none => some []
    | some l => some l
  let newId := (newObjectID s.gen).1
  let story : Story :=
    { id := newId, title := input.title, segments := segs,
      createdAt := now, isPublished := input.isPublished }
  (⟨insertOne s.db newId story, (newObjectID s.gen).2⟩, .created story)

/-- The "ensure segments have IDs" loop of updateStory: every segment whose
id is the zero ObjectID receives a freshly generated id; all other segments
are left untouched.  Returns the final generator state and the list. -/
def ensureSegmentIDs : Nat → List Segment → Nat × List Segment
  | g, [] => (g, [])
  | g, seg :: rest =>
    if seg.id = 0 then
      let nid := (newObjectID g).1
      let r := ensureSegmentIDs (newObjectID g).2 rest
      (r.1, { seg with id := nid } :: r.2)
    else
      let r := ensureSegmentIDs g rest
      (r.1, seg :: r.2)

/-- The segment value written by updateStory: a nil incoming list stays nil
(the loop over a nil slice does nothing), a present list has its ids
ensured. -/
def setSegments (g : Nat) : Option (List Segment) → Nat × Option (List Segment)
  | none => (g, none)
  | some l => ((ensureSegmentIDs g l).1, some (ensureSegmentIDs g l).2)

/-- The `$set` update document of updateStory, applied to a stored story:
replaces exactly title, segments and is_published; every other field of the
document is untouched. -/
def applySet (input : Story) (segs : Option (List Segment)) (old : Story) : Story :=
  { old with title := input.title, segments := segs,
             isPublished := input.isPublished }

/-- updateStory handler (body already decoded into `input`): parses the id,
ensures segment ids, issues a single UpdateOne with the three-field `$set`,
then re-reads the document with FindOne and returns what was read; a failed
re-read (nonexistent story) is a 500. -/
def updateStory (s : SState) (idHex : Str) (input : Story) : SState × HResp :=
  match objectIDFromHex idHex with
  | none => (s, .badRequest)
  | some oid =>
    let gs := setSegments s.gen input.segments
    let db2 := updateOneSet s.db oid (applySet input gs.2)
    match findOne db2 oid with
    | none => (⟨db2, gs.1⟩, .serverError)
    | some st => (⟨db2, gs.1⟩, .ok st)

/-- deleteStory handler: parses the id, issues DeleteOne, answers 204; a
missing document is still a 204. -/
def deleteStory (s : SState) (idHex : Str) : SState × HResp :=
  match objectIDFromHex idHex with
  | none => (s, .badRequest)
  | some oid => (⟨deleteOne s.db oid, s.gen⟩, .noContent)

/-- Storage configuration of the media-upload coordinator. -/
structure S3Config where
  bucket : Str
  endpoint : Str
  publicHost : Str
deriving DecidableEq, Repr

/-- The canonical object path: fmt.Sprintf with storyID, a slash, segmentID
and the literal suffix slash-audio — a verbatim, unvalidated concatenation. -/
def objectName (storyID segmentID : Str) : Str :=
  storyID ++ str "/" ++ segmentID ++ str "/audio"

/-- Modelled from the spec: the external S3 presign primitive (path-style,
as forced by S3ForcePathStyle) returns a write URL of the form
endpoint, slash, bucket, slash, key, then the query string carrying the
signature material; `sig` stands for that signature query string, which
varies with signing time and credentials. -/
def presignPutObject (cfg : S3Config) (key sig : Str) : Str :=
  cfg.endpoint ++ (str "/" ++ cfg.bucket ++ str "/" ++ key ++ str "?" ++ sig)

/-- strings.Replace with count 1: replaces the first occurrence of `old`
by `new`; an empty `old` matches at the start of the string. -/
def replaceFirst (old new : Str) : Str → Str
  | [] => if old.isEmpty then new else []
  | c :: rest =>
    if old.isPrefixOf (c :: rest) then new ++ (c :: rest).drop old.length
    else c :: replaceFirst old new rest

/-- The JSON body returned by generateAudioUploadURL. -/
structure UploadURLs where
  uploadURL : Str
  publicURL : Str
deriving DecidableEq, Repr

/-- generateAudioUploadURL handler: builds the canonical object path,
presigns a PUT for it, rewrites the internal endpoint to the public host in
the presigned URL, and derives the stable public URL from the same path. -/
def generateAudioUploadURL (cfg : S3Config) (sig : Str) (storyID segmentID : Str) :
    UploadURLs :=
  let key := objectName storyID segmentID
  let presigned := presignPutObject cfg key sig
  let rewritten := replaceFirst cfg.endpoint cfg.publicHost presigned
  let publicURL := cfg.publicHost ++ str "/" ++ cfg.bucket ++ str "/" ++ key
  ⟨rewritten, publicURL⟩

/-- The shared URL prefix public-host, slash, bucket, slash under which both
returned URLs address the object. -/
def urlPrefix (cfg : S3Config) : Str :=
  cfg.publicHost ++ str "/" ++ cfg.bucket ++ str "/"

/-- Strips a prefix from a string, or fails if it is not a prefix. -/
def stripPrefixOpt : Str → Str → Option Str
  | [], s => some s
  | _ :: _, [] => none
  | p :: ps, c :: cs => if p = c then stripPrefixOpt ps cs else none

/-- Takes the part of a URL remainder before the query string. -/
def takeUntilQuery : Str → Str
  | [] => []
  | c :: rest => if c = '?' then [] else c :: takeUntilQuery rest

/-- The object path a public URL resolves to: what follows the shared
prefix. -/
def pathOfPublicURL (cfg : S3Config) (u : Str) : Option Str :=
  stripPrefixOpt (urlPrefix cfg) u

/-- The object path a (rewritten) presigned upload URL targets: what follows
the shared prefix, up to the query string. -/
def keyOfUploadURL (cfg : S3Config) (u : Str) : Option Str :=
  (stripPrefixOpt (urlPrefix cfg) u).map takeUntilQuery

/-- The segment ids carried by a story (empty for a nil segment list). -/
def storySegIds (st : Story) : List ObjectID :=
  (st.segments.getD []).map Segment.id

/-! ### String and URL helper lemmas -/

lemma str_slash : str "/" = ['/'] := rfl

lemma str_query : str "?" = ['?'] := rfl

lemma isPrefixOf_append_self (l t : Str) : l.isPrefixOf (l ++ t) = true := by
  simp [List.isPrefixOf_iff_prefix]

lemma replaceFirst_append (old new rest : Str) :
    replaceFirst old new (old ++ rest) = new ++ rest := by
  cases old with
  | nil =>
    cases rest with
    | nil => simp [replaceFirst]
    | cons c cs => simp [replaceFirst, List.isPrefixOf]
  | cons o os =>
    show replaceFirst (o :: os) new (o :: (os ++ rest)) = new ++ rest
    simp [replaceFirst, isPrefixOf_append_self, List.drop_left]

lemma stripPrefixOpt_append (p rest : Str) :
    stripPrefixOpt p (p ++ rest) = some rest := by
  induction p with
  | nil => rfl
  | cons c cs ih => simp [stripPrefixOpt, ih]

lemma takeUntilQuery_append (xs ys : Str) (h : '?' ∉ xs) :
    takeUntilQuery (xs ++ '?' :: ys) = xs := by
  induction xs with
  | nil => simp [takeUntilQuery]
  | cons c cs ih =>
    have hc : ¬ (c = '?') := fun hc => h (by simp [hc])
    have hcs : '?' ∉ cs := fun hm => h (List.mem_cons_of_mem _ hm)
    simp [takeUntilQuery, hc, ih hcs]

lemma query_not_mem_objectName (storyID segmentID : Str)
    (h1 : '?' ∉ storyID) (h2 : '?' ∉ segmentID) :
    '?' ∉ objectName storyID segmentID := by
  intro hmem
  simp only [objectName, List.append_assoc, List.mem_append] at hmem
  rcases hmem with h | h | h | h
  · exact h1 h
  · exact absurd h (by decide)
  · exact h2 h
  · exact absurd h (by decide)

lemma uploadURL_eq (cfg : S3Config) (sig storyID segmentID : Str) :
    (generateAudioUploadURL cfg sig storyID segmentID).uploadURL =
      cfg.publicHost ++
        (str "/" ++ cfg.bucket ++ str "/" ++ objectName storyID segmentID ++
          str "?" ++ sig) := by
  simp [generateAudioUploadURL, presignPutObject, replaceFirst_append,
    List.append_assoc]

lemma publicURL_eq (cfg : S3Config) (sig storyID segmentID : Str) :
    (generateAudioUploadURL cfg sig storyID segmentID).publicURL =
      urlPrefix cfg ++ objectName storyID segmentID := by
  simp [generateAudioUploadURL, urlPrefix, List.append_assoc]

/-! ### Collection helper lemmas -/

lemma findOne_updateOneSet_self (db : DB) (oid : ObjectID) (f : Story → Story) :
    findOne (updateOneSet db oid f) oid = (findOne db oid).map f := by
  induction db with
  | nil => rfl
  | cons p rest ih =>
    obtain ⟨k, v⟩ := p
    by_cases hk : k = oid
    · simp [updateOneSet, findOne, hk]
    · simp [updateOneSet, findOne, hk, ih]

lemma findOne_updateOneSet_ne (db : DB) (oid oid2 : ObjectID) (f : Story → Story)
    (h : oid2 ≠ oid) :
    findOne (updateOneSet db oid f) oid2 = findOne db oid2 := by
  induction db with
  | nil => rfl
  | cons p rest ih =>
    obtain ⟨k, v⟩ := p
    by_cases hk : k = oid
    · subst hk
      simp [updateOneSet, findOne, Ne.symm h]
    · simp [updateOneSet, findOne, hk, ih]

lemma updateOneSet_of_findOne_none (db : DB) (oid : ObjectID) (f : Story → Story)
    (h : findOne db oid = none) :
    updateOneSet db oid f = db := by
  induction db with
  | nil => rfl
  | cons p rest ih =>
    obtain ⟨k, v⟩ := p
    by_cases hk : k = oid
    · simp [findOne, hk] at h
    · simp only [findOne, hk, if_false, if_neg hk] at h
      simp [updateOneSet, hk, ih h]

lemma findOne_eq_none_of_not_mem (db : DB) (oid : ObjectID)
    (h : oid ∉ db.map Prod.fst) :
    findOne db oid = none := by
  induction db with
  | nil => rfl
  | cons p rest ih =>
    obtain ⟨k, v⟩ := p
    simp only [List.map_cons, List.mem_cons] at h
    push_neg at h
    simp [findOne, Ne.symm h.1, ih h.2]

lemma findOne_deleteOne_self (db : DB) (oid : ObjectID)
    (hnd : (db.map Prod.fst).Nodup) :
    findOne (deleteOne db oid) oid = none := by
  induction db with
  | nil => rfl
  | cons p rest ih =>
    obtain ⟨k, v⟩ := p
    simp only [List.map_cons, List.nodup_cons] at hnd
    by_cases hk : k = oid
    · subst hk
      simp only [deleteOne, if_pos rfl]
      exact findOne_eq_none_of_not_mem rest k hnd.1
    · simp [deleteOne, findOne, hk, ih hnd.2]

/-! ### Segment-id assignment helper lemmas -/

lemma ensureSegmentIDs_cons_zero (g : Nat) (seg : Segment) (rest : List Segment)
    (h : seg.id = 0) :
    ensureSegmentIDs g (seg :: rest) =
      ((ensureSegmentIDs (g + 1) rest).1,
        { seg with id := g + 1 } :: (ensureSegmentIDs (g + 1) rest).2) := by
  simp [ensureSegmentIDs, h, newObjectID]

lemma ensureSegmentIDs_cons_pos (g : Nat) (seg : Segment) (rest : List Segment)
    (h : ¬ seg.id = 0) :
    ensureSegmentIDs g (seg :: rest) =
      ((ensureSegmentIDs g rest).1, seg :: (ensureSegmentIDs g rest).2) := by
  simp [ensureSegmentIDs, h]

lemma ensureSegmentIDs_forall2 (g : Nat) (segs : List Segment) :
    List.Forall₂ (fun a b => (a.id ≠ 0 → b = a) ∧ (a.id = 0 → b.id ≠ 0))
      segs (ensureSegmentIDs g segs).2 := by
  induction segs generalizing g with
  | nil => simp [ensureSegmentIDs]
  | cons seg rest ih =>
    by_cases h : seg.id = 0
    · rw [ensureSegmentIDs_cons_zero g seg rest h]
      exact List.Forall₂.cons
        ⟨fun hne => absurd h hne, fun _ => Nat.succ_ne_zero g⟩ (ih (g + 1))
    · rw [ensureSegmentIDs_cons_pos g seg rest h]
      exact List.Forall₂.cons ⟨fun _ => rfl, fun hz => absurd hz h⟩ (ih g)

lemma ensureSegmentIDs_gen_le (g : Nat) (segs : List Segment) :
    g ≤ (ensureSegmentIDs g segs).1 := by
  induction segs generalizing g with
  | nil => simp [ensureSegmentIDs]
  | cons seg rest ih =>
    by_cases h : seg.id = 0
    · rw [ensureSegmentIDs_cons_zero g seg rest h]
      exact Nat.le_trans (Nat.le_succ g) (ih (g + 1))
    · rw [ensureSegmentIDs_cons_pos g seg rest h]
      exact ih g

lemma ensureSegmentIDs_mem_id (g : Nat) (segs : List Segment) :
    ∀ x ∈ (ensureSegmentIDs g segs).2.map Segment.id,
      (x ∈ segs.map Segment.id ∧ x ≠ 0) ∨
        (g < x ∧ x ≤ (ensureSegmentIDs g segs).1) := by
  induction segs generalizing g with
  | nil => simp [ensureSegmentIDs]
  | cons seg rest ih =>
    intro x hx
    by_cases h : seg.id = 0
    · rw [ensureSegmentIDs_cons_zero g seg rest h] at hx ⊢
      simp only [List.map_cons, List.mem_cons] at hx
      rcases hx with hx | hx
      · refine Or.inr ⟨?_, ?_⟩
        · exact hx ▸ Nat.lt_succ_self g
        · exact hx ▸ ensureSegmentIDs_gen_le (g + 1) rest
      · rcases ih (g + 1) x hx with ⟨hm, hz⟩ | ⟨hlt, hle⟩
        · exact Or.inl ⟨by simp only [List.map_cons]; exact List.mem_cons_of_mem _ hm, hz⟩
        · exact Or.inr ⟨Nat.lt_of_succ_lt hlt, hle⟩
    · rw [ensureSegmentIDs_cons_pos g seg rest h] at hx ⊢
      simp only [List.map_cons, List.mem_cons] at hx
      rcases hx with hx | hx
      · exact Or.inl ⟨by simp [hx], hx ▸ h⟩
      · rcases ih g x hx with ⟨hm, hz⟩ | hgt
        · exact Or.inl ⟨by simp only [List.map_cons]; exact List.mem_cons_of_mem _ hm, hz⟩
        · exact Or.inr hgt

lemma ensureSegmentIDs_nodup (g : Nat) (segs : List Segment)
    (hin : ∀ s ∈ segs, s.id = 0 ∨ s.id ≤ g)
    (hnd : ((segs.map Segment.id).filter (fun x => x ≠ 0)).Nodup) :
    ((ensureSegmentIDs g segs).2.map Segment.id).Nodup := by
  induction segs generalizing g with
  | nil => simp [ensureSegmentIDs]
  | cons seg rest ih =>
    by_cases h : seg.id = 0
    · rw [ensureSegmentIDs_cons_zero g seg rest h]
      simp only [List.map_cons, List.nodup_cons]
      simp only [List.map_cons, List.filter_cons, h] at hnd
      rw [if_neg (by simp)] at hnd
      constructor
      · intro hmem
        rcases ensureSegmentIDs_mem_id (g + 1) rest _ hmem with ⟨hm, _⟩ | ⟨hlt, _⟩
        · obtain ⟨s, hs, hid⟩ := List.mem_map.mp hm
          rcases hin s (List.mem_cons_of_mem _ hs) with h0 | hle
          · exact Nat.succ_ne_zero g (hid.symm.trans h0)
          · exact Nat.not_succ_le_self g (le_of_eq_of_le hid.symm hle)
        · exact Nat.lt_irrefl _ hlt
      · refine ih (g + 1) (fun s hs => ?_) hnd
        rcases hin s (List.mem_cons_of_mem _ hs) with h0 | hle
        · exact Or.inl h0
        · exact Or.inr (Nat.le_succ_of_le hle)
    · rw [ensureSegmentIDs_cons_pos g seg rest h]
      simp only [List.map_cons, List.nodup_cons]
      simp only [List.map_cons, List.filter_cons] at hnd
      rw [if_pos (by simpa using h), List.nodup_cons] at hnd
      constructor
      · intro hmem
        rcases ensureSegmentIDs_mem_id g rest _ hmem with ⟨hm, hz⟩ | ⟨hlt, _⟩
        · exact hnd.1 (List.mem_filter.mpr ⟨hm, by simpa using hz⟩)
        · rcases hin seg (List.mem_cons_self _ _) with h0 | hle
          · exact h h0
          · exact Nat.lt_irrefl g (Nat.lt_of_lt_of_le hlt hle)
      · exact ih g (fun s hs => hin s (List.mem_cons_of_mem _ hs)) hnd.2

/-- The successful-update characterization: when the id parses and the story
exists, updateStory issues the three-field `$set` against the stored
document and answers 200 with the re-read document. -/
lemma updateStory_found (db : DB) (gen : Nat) (idHex : Str) (input : Story)
    (oid : ObjectID) (old : Story)
    (hhex : objectIDFromHex idHex = some oid)
    (hfound : findOne db oid = some old) :
    updateStory ⟨db, gen⟩ idHex input =
      (⟨updateOneSet db oid (applySet input (setSegments gen input.segments).2),
        (setSegments gen input.segments).1⟩,
       .ok (applySet input (setSegments gen input.segments).2 old)) := by
  simp [updateStory, hhex, findOne_updateOneSet_self, hfound]

/-! ### Concrete scenario used by the witnesses -/

/-- A stored story with id 1, empty title, empty segment list. -/
def storyW : Story := ⟨1, [], some [], 0, false⟩

/-- A one-story collection holding `storyW` under id 1. -/
def dbW : DB := [(1, storyW)]

/-- The 24-character hex string parsing to ObjectID 1. -/
def hexW : Str := str "000000000000000000000001"

/-- A segment arriving with the zero ObjectID. -/
def segZeroW : Segment := ⟨0, none, none, none⟩

/-- A segment arriving with the non-zero identity 5. -/
def segFiveW : Segment := ⟨5, none, none, none⟩

/-- An update body with an empty segment list. -/
def inputEmptyW : Story := ⟨0, [], some [], 0, false⟩

/-- An update body with one id-less segment and one identified segment. -/
def inputSegsW : Story := ⟨0, [], some [segZeroW, segFiveW], 0, true⟩

/-- An update body smuggling the same non-zero identity twice. -/
def inputDupW : Story := ⟨0, [], some [segFiveW, segFiveW], 0, false⟩

/-- A concrete storage configuration. -/
def cfgW : S3Config := ⟨str "media", str "http://minio:9000", str "http://localhost:9000"⟩

/-- A concrete signature query string of a first presign call. -/
def sigW : Str := str "X-Amz-Signature=aaa"

/-- A concrete signature query string of a second presign call. -/
def sigW2 : Str := str "X-Amz-Signature=bbb"

/-! ### The claims -/

/-- C1: for every (storyId, segmentId) pair, the object path embedded in the
presigned uploadURL and the path portion of the returned publicURL are
equal: both are built from the single canonical path storyId, slash,
segmentId, slash, audio, so extracting the path from publicURL yields
exactly the object path targeted by uploadURL. -/
theorem upload_and_public_path_agree (cfg : S3Config) (sig storyID segmentID : Str)
    (h1 : '?' ∉ storyID) (h2 : '?' ∉ segmentID) :
    keyOfUploadURL cfg
        (generateAudioUploadURL cfg sig storyID segmentID).uploadURL =
      some (objectName storyID segmentID) ∧
    pathOfPublicURL cfg
        (generateAudioUploadURL cfg sig storyID segmentID).publicURL =
      some (objectName storyID segmentID) := by
  constructor
  · rw [keyOfUploadURL, uploadURL_eq]
    have heq : cfg.publicHost ++
        (str "/" ++ cfg.bucket ++ str "/" ++ objectName storyID segmentID ++
          str "?" ++ sig) =
        urlPrefix cfg ++ (objectName storyID segmentID ++ '?' :: sig) := by
      simp [urlPrefix, str_query, List.append_assoc]
    rw [heq, stripPrefixOpt_append]
    simp [takeUntilQuery_append _ _ (query_not_mem_objectName _ _ h1 h2)]
  · rw [pathOfPublicURL, publicURL_eq, stripPrefixOpt_append]

/-- Witness for C1 at a concrete configuration and path pair. -/
theorem upload_and_public_path_agree_witness :
    ('?' ∉ str "story1" ∧ '?' ∉ str "seg1") ∧
    (keyOfUploadURL cfgW
        (generateAudioUploadURL cfgW sigW (str "story1") (str "seg1")).uploadURL =
      some (objectName (str "story1") (str "seg1")) ∧
    pathOfPublicURL cfgW
        (generateAudioUploadURL cfgW sigW (str "story1") (str "seg1")).publicURL =
      some (objectName (str "story1") (str "seg1"))) :=
  ⟨⟨by decide, by decide⟩,
   upload_and_public_path_agree cfgW sigW (str "story1") (str "seg1")
     (by decide) (by decide)⟩

/-- C6: issuing the upload URL twice for the same (storyId, segmentId) pair
under the same configuration yields the identical publicURL both times — the
publicURL is a deterministic function of the pair and the configuration —
while presigned uploadURLs produced with different signature material
differ. -/
theorem reissue_same_public_url (cfg : S3Config) (sig1 sig2 storyID segmentID : Str)
    (hsig : sig1 ≠ sig2) :
    (generateAudioUploadURL cfg sig1 storyID segmentID).publicURL =
      (generateAudioUploadURL cfg sig2 storyID segmentID).publicURL ∧
    (generateAudioUploadURL cfg sig1 storyID segmentID).uploadURL ≠
      (generateAudioUploadURL cfg sig2 storyID segmentID).uploadURL := by
  refine ⟨rfl, fun h => hsig ?_⟩
  rw [uploadURL_eq, uploadURL_eq] at h
  exact List.append_cancel_left (List.append_cancel_left h)

/-- Witness for C6 at a concrete configuration and two signatures. -/
theorem reissue_same_public_url_witness :
    sigW ≠ sigW2 ∧
    ((generateAudioUploadURL cfgW sigW (str "s") (str "g")).publicURL =
        (generateAudioUploadURL cfgW sigW2 (str "s") (str "g")).publicURL ∧
      (generateAudioUploadURL cfgW sigW (str "s") (str "g")).uploadURL ≠
        (generateAudioUploadURL cfgW sigW2 (str "s") (str "g")).uploadURL) :=
  ⟨by decide, reissue_same_public_url cfgW sigW sigW2 (str "s") (str "g") (by decide)⟩

/-- C10: the (storyId, segmentId) to object-path mapping is the verbatim,
unvalidated concatenation storyId, slash, segmentId, slash, audio, and it is
not injective: the two distinct pairs (a, b slash c) and (a slash b, c)
yield the same object path and therefore the same coordinator output, in
particular the same publicURL and presign target. -/
theorem objectName_not_injective :
    (∀ s g : Str, objectName s g = s ++ str "/" ++ g ++ str "/audio") ∧
    objectName (str "a") (str "b/c") = objectName (str "a/b") (str "c") ∧
    (str "a", str "b/c") ≠ (str "a/b", str "c") ∧
    ∀ cfg sig, generateAudioUploadURL cfg sig (str "a") (str "b/c") =
      generateAudioUploadURL cfg sig (str "a/b") (str "c") := by
  refine ⟨fun s g => rfl, by decide, by decide, fun cfg sig => ?_⟩
  have h : objectName (str "a") (str "b/c") = objectName (str "a/b") (str "c") := by
    decide
  unfold generateAudioUploadURL
  rw [h]

/-- C5: a story created with an absent (nil) segment list is persisted and
returned with an empty segment sequence, never a nil value; a present
segment list is preserved verbatim, in order. -/
theorem createStory_normalizes_segments (s : SState) (now : Nat) (input : Story) :
    (createStory s now input).2 =
      .created { id := s.gen + 1, title := input.title,
                 segments := some (input.segments.getD []),
                 createdAt := now, isPublished := input.isPublished } ∧
    findOne (createStory s now input).1.db (s.gen + 1) =
      some { id := s.gen + 1, title := input.title,
             segments := some (input.segments.getD []),
             createdAt := now, isPublished := input.isPublished } := by
  cases hseg : input.segments with
  | none => simp [createStory, newObjectID, insertOne, findOne, hseg]
  | some l => simp [createStory, newObjectID, insertOne, findOne, hseg]

/-- C2: on update, a segment arriving with the zero ObjectID is returned
with a freshly generated, non-zero identity, while a segment arriving with a
non-zero identity is returned unchanged — its identity is exactly the one
supplied, never reassigned or regenerated. -/
theorem updateStory_segment_identities (db : DB) (gen : Nat) (idHex : Str)
    (input : Story) (oid : ObjectID) (old : Story) (segs : List Segment)
    (hhex : objectIDFromHex idHex = some oid)
    (hfound : findOne db oid = some old)
    (hsegs : input.segments = some segs) :
    (updateStory ⟨db, gen⟩ idHex input).2 =
      .ok (applySet input (some (ensureSegmentIDs gen segs).2) old) ∧
    List.Forall₂ (fun a b => (a.id ≠ 0 → b = a) ∧ (a.id = 0 → b.id ≠ 0))
      segs (ensureSegmentIDs gen segs).2 := by
  constructor
  · rw [updateStory_found db gen idHex input oid old hhex hfound]
    simp [setSegments, hsegs]
  · exact ensureSegmentIDs_forall2 gen segs

/-- Witness for C2 on a concrete update carrying one id-less and one
identified segment. -/
theorem updateStory_segment_identities_witness :
    (objectIDFromHex hexW = some 1 ∧ findOne dbW 1 = some storyW ∧
      inputSegsW.segments = some [segZeroW, segFiveW]) ∧
    ((updateStory ⟨dbW, 1⟩ hexW inputSegsW).2 =
      .ok (applySet inputSegsW
        (some (ensureSegmentIDs 1 [segZeroW, segFiveW]).2) storyW) ∧
    List.Forall₂ (fun a b => (a.id ≠ 0 → b = a) ∧ (a.id = 0 → b.id ≠ 0))
      [segZeroW, segFiveW] (ensureSegmentIDs 1 [segZeroW, segFiveW]).2) :=
  ⟨⟨by decide, by decide, by decide⟩,
   updateStory_segment_identities dbW 1 hexW inputSegsW 1 storyW
     [segZeroW, segFiveW] (by decide) (by decide) (by decide)⟩

/-- C3: a successful update answers 200 with exactly the document re-read
from the store after the write — the response body equals the persisted
state of the document with the given id, not an echo of the input. -/
theorem updateStory_read_after_write (db : DB) (gen : Nat) (idHex : Str)
    (input : Story) (oid : ObjectID) (s2 : SState) (st2 : Story)
    (hhex : objectIDFromHex idHex = some oid)
    (hrun : updateStory ⟨db, gen⟩ idHex input = (s2, .ok st2)) :
    findOne s2.db oid = some st2 := by
  simp only [updateStory, hhex] at hrun
  cases hfind : findOne
      (updateOneSet db oid (applySet input (setSegments gen input.segments).2)) oid with
  | none =>
    rw [hfind] at hrun
    simp at hrun
  | some st =>
    rw [hfind] at hrun
    injection hrun with h1 h2
    injection h2 with h3
    subst h3
    subst h1
    exact hfind

/-- Witness for C3 on a concrete successful update. -/
theorem updateStory_read_after_write_witness :
    (objectIDFromHex hexW = some 1 ∧
      updateStory ⟨dbW, 1⟩ hexW inputEmptyW = (⟨dbW, 1⟩, .ok storyW)) ∧
    findOne dbW 1 = some storyW :=
  ⟨⟨by decide, by decide⟩,
   updateStory_read_after_write dbW 1 hexW inputEmptyW 1 ⟨dbW, 1⟩ storyW
     (by decide) (by decide)⟩

/-- C4: an update of an existing story issues a single document update that
replaces exactly title, segments and is_published; the stored and returned
document keeps the story id and CreatedAt of the previous version, and every
other stored document is untouched. -/
theorem updateStory_frame (db : DB) (gen : Nat) (idHex : Str) (input : Story)
    (oid : ObjectID) (old : Story)
    (hhex : objectIDFromHex idHex = some oid)
    (hfound : findOne db oid = some old) :
    (updateStory ⟨db, gen⟩ idHex input).1.db =
      updateOneSet db oid (applySet input (setSegments gen input.segments).2) ∧
    (updateStory ⟨db, gen⟩ idHex input).2 =
      .ok (applySet input (setSegments gen input.segments).2 old) ∧
    (applySet input (setSegments gen input.segments).2 old).id = old.id ∧
    (applySet input (setSegments gen input.segments).2 old).createdAt =
      old.createdAt ∧
    (applySet input (setSegments gen input.segments).2 old).title = input.title ∧
    (applySet input (setSegments gen input.segments).2 old).isPublished =
      input.isPublished ∧
    (applySet input (setSegments gen input.segments).2 old).segments =
      (setSegments gen input.segments).2 ∧
    ∀ oid2, oid2 ≠ oid →
      findOne (updateStory ⟨db, gen⟩ idHex input).1.db oid2 = findOne db oid2 := by
  rw [updateStory_found db gen idHex input oid old hhex hfound]
  exact ⟨rfl, rfl, rfl, rfl, rfl, rfl, rfl, fun oid2 h2 =>
    findOne_updateOneSet_ne db oid oid2 _ h2⟩

/-- Witness for C4 on a concrete update of the stored story. -/
theorem updateStory_frame_witness :
    (objectIDFromHex hexW = some 1 ∧ findOne dbW 1 = some storyW) ∧
    ((updateStory ⟨dbW, 1⟩ hexW inputSegsW).1.db =
      updateOneSet dbW 1 (applySet inputSegsW (setSegments 1 inputSegsW.segments).2) ∧
    (applySet inputSegsW (setSegments 1 inputSegsW.segments).2 storyW).id =
      storyW.id ∧
    (applySet inputSegsW (setSegments 1 inputSegsW.segments).2 storyW).createdAt =
      storyW.createdAt ∧
    findOne (updateStory ⟨dbW, 1⟩ hexW inputSegsW).1.db 2 = findOne dbW 2) :=
  ⟨⟨by decide, by decide⟩,
   ⟨(updateStory_frame dbW 1 hexW inputSegsW 1 storyW (by decide) (by decide)).1,
    (updateStory_frame dbW 1 hexW inputSegsW 1 storyW (by decide) (by decide)).2.2.1,
    (updateStory_frame dbW 1 hexW inputSegsW 1 storyW (by decide) (by decide)).2.2.2.1,
    (updateStory_frame dbW 1 hexW inputSegsW 1 storyW (by decide)
      (by decide)).2.2.2.2.2.2.2 2 (by decide)⟩⟩

/-- C7: after a delete of a story id (always a 204), an update call with the
same id takes the read-after-write failure path and answers the server
error — never a 200 with a story body. -/
theorem delete_then_update_fails (db : DB) (gen : Nat) (idHex : Str)
    (input : Story) (oid : ObjectID)
    (hnd : (db.map Prod.fst).Nodup)
    (hhex : objectIDFromHex idHex = some oid) :
    (deleteStory ⟨db, gen⟩ idHex).2 = .noContent ∧
    (updateStory (deleteStory ⟨db, gen⟩ idHex).1 idHex input).2 = .serverError := by
  have hdel : deleteStory ⟨db, gen⟩ idHex = (⟨deleteOne db oid, gen⟩, .noContent) := by
    simp [deleteStory, hhex]
  rw [hdel]
  refine ⟨rfl, ?_⟩
  have hnone : findOne (deleteOne db oid) oid = none :=
    findOne_deleteOne_self db oid hnd
  simp [updateStory, hhex, findOne_updateOneSet_self, hnone]

/-- Witness for C7: delete then update of the concrete stored story id. -/
theorem delete_then_update_fails_witness :
    ((dbW.map Prod.fst).Nodup ∧ objectIDFromHex hexW = some 1) ∧
    ((deleteStory ⟨dbW, 1⟩ hexW).2 = .noContent ∧
      (updateStory (deleteStory ⟨dbW, 1⟩ hexW).1 hexW inputEmptyW).2 = .serverError) :=
  ⟨⟨by decide, by decide⟩,
   delete_then_update_fails dbW 1 hexW inputEmptyW 1 (by decide) (by decide)⟩

/-- C9: an update whose id parses as a valid identity but references no
stored document inserts nothing — the update is not an upsert, the stored
collection is unchanged — and the call fails with the server error. -/
theorem updateStory_no_upsert (db : DB) (gen : Nat) (idHex : Str)
    (input : Story) (oid : ObjectID)
    (hhex : objectIDFromHex idHex = some oid)
    (hmiss : findOne db oid = none) :
    (updateStory ⟨db, gen⟩ idHex input).1.db = db ∧
    (updateStory ⟨db, gen⟩ idHex input).2 = .serverError := by
  have hupd := updateOneSet_of_findOne_none db oid
    (applySet input (setSegments gen input.segments).2) hmiss
  constructor <;> simp [updateStory, hhex, hupd, hmiss]

/-- Witness for C9 on the empty collection. -/
theorem updateStory_no_upsert_witness :
    (objectIDFromHex hexW = some 1 ∧ findOne ([] : DB) 1 = none) ∧
    ((updateStory ⟨[], 1⟩ hexW inputEmptyW).1.db = [] ∧
      (updateStory ⟨[], 1⟩ hexW inputEmptyW).2 = .serverError) :=
  ⟨⟨by decide, by decide⟩,
   updateStory_no_upsert [] 1 hexW inputEmptyW 1 (by decide) (by decide)⟩

/-- C8 counterexample: a story reachable by a create followed by an update
that smuggles the same non-zero segment identity twice is returned (and
stored) with duplicate segment identities — the code performs no uniqueness
check on client-supplied identities. -/
theorem segment_ids_not_unique_cex :
    (updateStory (createStory ⟨[], 0⟩ 0 inputEmptyW).1 hexW inputDupW).2 =
      .ok ⟨1, [], some [segFiveW, segFiveW], 0, false⟩ ∧
    ¬ (storySegIds ⟨1, [], some [segFiveW, segFiveW], 0, false⟩).Nodup := by
  constructor
  · decide
  · decide

/-- C8 amended: segment-identity uniqueness within a story is preserved by
update provided the client-supplied non-zero identities are pairwise
distinct and lie in the already-issued range (so they cannot collide with
the freshly generated ones); under those conditions the returned story's
segment identities are pairwise distinct. -/
theorem updateStory_segment_ids_nodup (db : DB) (gen : Nat) (idHex : Str)
    (input : Story) (oid : ObjectID) (old : Story) (segs : List Segment)
    (hhex : objectIDFromHex idHex = some oid)
    (hfound : findOne db oid = some old)
    (hsegs : input.segments = some segs)
    (hin : ∀ s ∈ segs, s.id = 0 ∨ s.id ≤ gen)
    (hnd : ((segs.map Segment.id).filter (fun x => x ≠ 0)).Nodup) :
    (updateStory ⟨db, gen⟩ idHex input).2 =
      .ok (applySet input (some (ensureSegmentIDs gen segs).2) old) ∧
    (storySegIds (applySet input (some (ensureSegmentIDs gen segs).2) old)).Nodup := by
  constructor
  · rw [updateStory_found db gen idHex input oid old hhex hfound]
    simp [setSegments, hsegs]
  · simpa [storySegIds, applySet] using ensureSegmentIDs_nodup gen segs hin hnd

/-- Witness for the amended C8 on a concrete well-behaved update. -/
theorem updateStory_segment_ids_nodup_witness :
    (objectIDFromHex hexW = some 1 ∧ findOne dbW 1 = some storyW ∧
      inputSegsW.segments = some [segZeroW, segFiveW] ∧
      (∀ s ∈ [segZeroW, segFiveW], s.id = 0 ∨ s.id ≤ 5) ∧
      (([segZeroW, segFiveW].map Segment.id).filter (fun x => x ≠ 0)).Nodup) ∧
    ((updateStory ⟨dbW, 5⟩ hexW inputSegsW).2 =
      .ok (applySet inputSegsW
        (some (ensureSegmentIDs 5 [segZeroW, segFiveW]).2) storyW) ∧
    (storySegIds (applySet inputSegsW
      (some (ensureSegmentIDs 5 [segZeroW, segFiveW]).2) storyW)).Nodup) :=
  ⟨⟨by decide, by decide, by decide, by decide, by decide⟩,
   updateStory_segment_ids_nodup dbW 5 hexW inputSegsW 1 storyW
     [segZeroW, segFiveW] (by decide) (by decide) (by decide) (by decide)
     (by decide)⟩

end Rosetta
